import Mathlib

/-
Verification of the sub-interpreter / thread-state guard machinery of
`src/main.cpp` (python-sub-interpreters-multiple-threads-example).

The C++ core is a set of RAII guards around the host runtime's C API:
  * `enable_threads_scope`   — release the execution token for a scope;
  * `restore_tstate_scope`   — save the current thread binding, restore on exit;
  * `swap_tstate_scope`      — swap the current thread binding, unswap on exit;
  * `thread_state`           — create a binding for an interpreter and attach;
  * `sub_interpreter`        — create / destroy an isolated interpreter, with
    `thread_scope` as the composite per-worker-thread guard;
  * `f` / `main`             — the demo workload and orchestration.

The host runtime itself (the `Py*` C API) is an external collaborator whose
code is not part of this repository; its primitives are modelled below from
the specification's description of the execution token, thread bindings and
contexts.  Each modelled primitive is a fallible state transformer
`PyState → Option (α × PyState)`: `none` marks a violated precondition
(fatal error or a blocking acquisition that cannot proceed).  The guards and
the demo program are then direct translations of the C++ source.
-/

set_option maxRecDepth 4000

namespace SubInterp

/-- Association-list lookup over Nat keys (first match wins). -/
def alookup (k : Nat) : List (Nat × Nat) → Option Nat
  | [] => none
  | p :: rest => if p.1 = k then some p.2 else alookup k rest

/-- Association-list update: overwrite the binding of `k`, or append it. -/
def aset (k v : Nat) : List (Nat × Nat) → List (Nat × Nat)
  | [] => [(k, v)]
  | p :: rest => if p.1 = k then (k, v) :: rest else p :: aset k v rest

/-- Association-list removal of every entry keyed `k`. -/
def adel (k : Nat) : List (Nat × Nat) → List (Nat × Nat)
  | [] => []
  | p :: rest => if p.1 = k then adel k rest else p :: adel k rest

/--
Global state of the modelled runtime.

* `tokenHolders` — the threads currently holding the execution token (the
  model keeps a list so that mutual exclusion is a provable invariant, not a
  typing artifact);
* `current`      — per-thread current binding: thread id ↦ thread-state id;
* `tstates`      — live thread states (bindings): thread-state id ↦ owning
  interpreter (context) id;
* `interps`      — live interpreter (context) ids;
* `nsX`          — the demo observable: per-interpreter value of the variable
  `X` (`sys.xxx` in the source script); absent key = unset;
* `nextTs`, `nextInterp` — allocation counters for fresh ids;
* `canCreate`    — whether interpreter creation succeeds (models the C API
  returning a null handle on failure).
-/
structure PyState where
  tokenHolders : List Nat
  current : List (Nat × Nat)
  tstates : List (Nat × Nat)
  interps : List Nat
  nsX : List (Nat × Nat)
  nextTs : Nat
  nextInterp : Nat
  canCreate : Bool
  deriving DecidableEq, Repr

/-- A fallible state transformer over the modelled runtime. -/
def PyM (α : Type) : Type := PyState → Option (α × PyState)

/-- Sequencing of fallible state transformers. -/
def pyBind {α β : Type} (m : PyM α) (g : α → PyM β) : PyM β := fun s =>
  match m s with
  | none => none
  | some (a, s1) => g a s1

/-- The effect-free transformer returning `a`. -/
def pyPure {α : Type} (a : α) : PyM α := fun s => some (a, s)

/-- Modelled from the spec: `PyThreadState_Get` returns the calling thread's
current binding; calling it with no current binding is a fatal error. -/
def PyThreadState_Get (t : Nat) : PyM Nat := fun s =>
  match alookup t s.current with
  | some ts => some (ts, s)
  | none => none

/-- Modelled from the spec (SwapCurrentBindingScope's underlying primitive):
swap the calling thread's current binding for `ts` (possibly none), returning
the previous one.  It only changes which binding is considered current; it
does not touch the execution token. -/
def PyThreadState_Swap (t : Nat) (ts : Option Nat) : PyM (Option Nat) := fun s =>
  match ts with
  | some v => some (alookup t s.current, { s with current := aset t v s.current })
  | none => some (alookup t s.current, { s with current := adel t s.current })

/-- Modelled from the spec (ExecutionToken.release): mark the token free,
callable only by a thread holding it and having a current binding, returning
that binding; the binding itself is not touched or invalidated. -/
def PyEval_SaveThread (t : Nat) : PyM Nat := fun s =>
  match alookup t s.current with
  | none => none
  | some ts =>
    if t ∈ s.tokenHolders then some (ts, { s with tokenHolders := [] })
    else none

/-- Modelled from the spec (ExecutionToken.acquire / restore): block until the
token is free (in this sequential model: fail unless it is free), then hold it
and make `ts` — which must be a live binding — current for the calling
thread. -/
def PyEval_RestoreThread (t ts : Nat) : PyM Unit := fun s =>
  match alookup ts s.tstates with
  | none => none
  | some _ =>
    if s.tokenHolders = [] then
      some ((), { s with tokenHolders := [t], current := aset t ts s.current })
    else none

/-- Modelled from the spec (ThreadBinding creation): allocate a fresh binding
against a live interpreter; the new binding is not yet current and no token is
needed. -/
def PyThreadState_New (interp : Nat) : PyM Nat := fun s =>
  if interp ∈ s.interps then
    some (s.nextTs, { s with tstates := aset s.nextTs interp s.tstates,
                             nextTs := s.nextTs + 1 })
  else none

/-- Modelled from the spec: clearing a binding's contents requires the token
and a live binding; the cleared contents are outside this model's
abstraction. -/
def PyThreadState_Clear (t ts : Nat) : PyM Unit := fun s =>
  match alookup ts s.tstates with
  | none => none
  | some _ => if t ∈ s.tokenHolders then some ((), s) else none

/-- Modelled from the spec (ThreadBinding.detach): destroy the calling
thread's current binding — it must be current and the token must be held —
removing it as current and giving up the token. -/
def PyThreadState_DeleteCurrent (t : Nat) : PyM Unit := fun s =>
  match alookup t s.current with
  | none => none
  | some ts =>
    if t ∈ s.tokenHolders then
      some ((), { s with tstates := adel ts s.tstates,
                         current := adel t s.current,
                         tokenHolders := [] })
    else none

/-- Modelled from the spec (Context.create): with the token held, allocate a
fresh isolated interpreter together with its primordial binding and make that
binding current for the calling thread, returning it; on failure (`canCreate`
false) return a null handle and change nothing. -/
def Py_NewInterpreter (t : Nat) : PyM (Option Nat) := fun s =>
  if t ∈ s.tokenHolders then
    if s.canCreate then
      some (some s.nextTs,
        { s with interps := s.nextInterp :: s.interps,
                 tstates := aset s.nextTs s.nextInterp s.tstates,
                 current := aset t s.nextTs s.current,
                 nextTs := s.nextTs + 1,
                 nextInterp := s.nextInterp + 1 })
    else some (none, s)
  else none

/-- Modelled from the spec (Context.destroy): with the token held and the
context's primordial binding `ts` current — and no other binding of that
context alive — destroy the context, its namespace and `ts`, leaving the
calling thread with no current binding (the token stays held). -/
def Py_EndInterpreter (t ts : Nat) : PyM Unit := fun s =>
  match alookup ts s.tstates with
  | none => none
  | some i =>
    if alookup t s.current = some ts then
      if t ∈ s.tokenHolders then
        if s.tstates.all (fun p => p.2 != i || p.1 == ts) then
          some ((), { s with tstates := adel ts s.tstates,
                             interps := s.interps.erase i,
                             current := adel t s.current,
                             nsX := adel i s.nsX })
        else none
      else none
    else none

/-- Modelled from the spec: workload code reading the demo variable `X` from
the current binding's context namespace; requires the token and a current
binding (this is what `PyRun_SimpleString` does in the worker script). -/
def pyGetX (t : Nat) : PyM (Option Nat) := fun s =>
  match alookup t s.current with
  | none => none
  | some ts =>
    match alookup ts s.tstates with
    | none => none
    | some i => if t ∈ s.tokenHolders then some (alookup i s.nsX, s) else none

/-- Modelled from the spec: workload code setting the demo variable `X` in the
current binding's context namespace (what the `sys.xxx = ['abc']` script does
in the primordial context). -/
def pySetX (t v : Nat) : PyM Unit := fun s =>
  match alookup t s.current with
  | none => none
  | some ts =>
    match alookup ts s.tstates with
    | none => none
    | some i =>
      if t ∈ s.tokenHolders then some ((), { s with nsX := aset i v s.nsX })
      else none

/-- Translation of `enable_threads_scope` (src/main.cpp:25-41): the
constructor saves the thread state releasing the token, the destructor
restores it around `body`. -/
def enable_threads_scope {α : Type} (t : Nat) (body : PyM α) : PyM α :=
  pyBind (PyEval_SaveThread t) (fun st =>
  pyBind body (fun r =>
  pyBind (PyEval_RestoreThread t st) (fun _ =>
  pyPure r)))

/-- Translation of `restore_tstate_scope` (src/main.cpp:44-61): the
constructor records the current thread state, the destructor swaps it back in
around `body`. -/
def restore_tstate_scope {α : Type} (t : Nat) (body : PyM α) : PyM α :=
  pyBind (PyThreadState_Get t) (fun saved =>
  pyBind body (fun r =>
  pyBind (PyThreadState_Swap t (some saved)) (fun _ =>
  pyPure r)))

/-- Translation of `swap_tstate_scope` (src/main.cpp:64-81): the constructor
swaps `ts` in recording the previous current state, the destructor swaps the
previous one back around `body`. -/
def swap_tstate_scope {α : Type} (t : Nat) (ts : Option Nat) (body : PyM α) : PyM α :=
  pyBind (PyThreadState_Swap t ts) (fun prev =>
  pyBind body (fun r =>
  pyBind (PyThreadState_Swap t prev) (fun _ =>
  pyPure r)))

/-- Translation of the `thread_state` constructor (src/main.cpp:88-92):
create a fresh thread state for `interp` and attach it (acquire the token,
make it current). -/
def thread_state_mk (t interp : Nat) : PyM Nat :=
  pyBind (PyThreadState_New interp) (fun ts =>
  pyBind (PyEval_RestoreThread t ts) (fun _ =>
  pyPure ts))

/-- Translation of the `thread_state` destructor (src/main.cpp:94-98): clear
the state and delete the current thread state. -/
def thread_state_del (t ts : Nat) : PyM Unit :=
  pyBind (PyThreadState_Clear t ts) (fun _ =>
  PyThreadState_DeleteCurrent t)

/-- Translation of `sub_interpreter::thread_scope` construction
(src/main.cpp:121-130): member order is `_state` (attach) then `_swap`
(swap with the fresh state as target); returns the fresh state id and the
previous state recorded by the swap. -/
def thread_scope_enter (t interp : Nat) : PyM (Nat × Option Nat) :=
  pyBind (thread_state_mk t interp) (fun ts =>
  pyBind (PyThreadState_Swap t (some ts)) (fun prev =>
  pyPure (ts, prev)))

/-- Translation of `sub_interpreter::thread_scope` destruction: members are
destroyed in reverse order — `_swap` unwinds first, then `_state` detaches. -/
def thread_scope_exit (t : Nat) (d : Nat × Option Nat) : PyM Unit :=
  pyBind (PyThreadState_Swap t d.2) (fun _ =>
  thread_state_del t d.1)

/-- The complete `thread_scope` guard around a workload body; the body's
result (including an error outcome carried in its value) never skips the
destructor sequence, mirroring RAII unwinding. -/
def thread_scope {α : Type} (t interp : Nat) (body : PyM α) : PyM α :=
  pyBind (thread_scope_enter t interp) (fun d =>
  pyBind body (fun r =>
  pyBind (thread_scope_exit t d) (fun _ =>
  pyPure r)))

/-- Translation of the `sub_interpreter` constructor (src/main.cpp:132-137):
under a `restore_tstate_scope`, create a new interpreter; the stored handle is
the new interpreter's primordial thread state (null on failure). -/
def sub_interpreter_mk (t : Nat) : PyM (Option Nat) :=
  restore_tstate_scope t (Py_NewInterpreter t)

/-- Translation of the `sub_interpreter` destructor (src/main.cpp:139-147):
if the handle is non-null, swap it in, end the interpreter, and swap back;
a null handle does nothing. -/
def sub_interpreter_destroy (t : Nat) (handle : Option Nat) : PyM Unit :=
  match handle with
  | none => pyPure ()
  | some ts => swap_tstate_scope t (some ts) (Py_EndInterpreter t ts)

/-- Translation of `sub_interpreter::interp()` (src/main.cpp:149-152):
dereference the stored thread-state handle to its interpreter. -/
def sub_interpreter_interp (handle : Option Nat) : PyM Nat := fun s =>
  match handle with
  | none => none
  | some ts =>
    match alookup ts s.tstates with
    | none => none
    | some i => some (i, s)

/-- Translation of `sub_interpreter::current()` (src/main.cpp:154-157): the
interpreter of the calling thread's current thread state. -/
def sub_interpreter_current (t : Nat) : PyM Nat := fun s =>
  match alookup t s.current with
  | none => none
  | some ts =>
    match alookup ts s.tstates with
    | none => none
    | some i => some (i, s)

/-- Translation of the worker `f` (src/main.cpp:165-180): enter a
`thread_scope` for the given interpreter and run the script, whose observable
effect is reading the demo variable `X` in the current context. -/
def f (t interp : Nat) : PyM (Option Nat) :=
  thread_scope t interp (pyGetX t)

/-- The state right after runtime startup: one primordial interpreter `0`
with its primordial binding `0`, current on the main thread `0`, which holds
the execution token. -/
def startState : PyState :=
  { tokenHolders := [0], current := [(0, 0)], tstates := [(0, 0)],
    interps := [0], nsX := [], nextTs := 1, nextInterp := 1, canCreate := true }

/-- The four worker threads of `main` (src/main.cpp:201-211): t1 and t3 run
against s1's interpreter, t2 against s2's, t4 against the primordial one;
under the released token they serialize and each returns its observation of
`X`. -/
def workerRuns (i1 i2 imain : Nat) :
    PyM (Option Nat × Option Nat × Option Nat × Option Nat) :=
  pyBind (f 1 i1) (fun r1 =>
  pyBind (f 2 i2) (fun r2 =>
  pyBind (f 3 i1) (fun r3 =>
  pyBind (f 4 imain) (fun r4 =>
  pyPure (r1, r2, r3, r4)))))

/-- Translation of `main` (src/main.cpp:182-214): create two sub-interpreters,
set `X` in the primordial context, then — with the token released via
`enable_threads_scope` — run the four workers, and finally destroy s2 and s1
(destructors run in reverse construction order).  Returns the four workers'
observations of `X`. -/
def mainProgram : PyM (Option Nat × Option Nat × Option Nat × Option Nat) :=
  pyBind (sub_interpreter_mk 0) (fun h1 =>
  pyBind (sub_interpreter_mk 0) (fun h2 =>
  pyBind (pySetX 0 42) (fun _ =>
  pyBind (sub_interpreter_interp h1) (fun i1 =>
  pyBind (sub_interpreter_interp h2) (fun i2 =>
  pyBind (sub_interpreter_current 0) (fun imain =>
  pyBind (enable_threads_scope 0 (workerRuns i1 i2 imain)) (fun res =>
  pyBind (sub_interpreter_destroy 0 h2) (fun _ =>
  pyBind (sub_interpreter_destroy 0 h1) (fun _ =>
  pyPure res)))))))))

/-- The state right after startup with the token voluntarily released (as the
orchestrating thread leaves it for the workers). -/
def freshState : PyState := { startState with tokenHolders := [] }

/-- A scope body performs only workload effects: it may change the context
namespaces (`nsX`) but none of the binding or token bookkeeping.  This is
what running an opaque script through the execution collaborator does. -/
def WorkloadOnly (s1 s2 : PyState) : Prop :=
  s2.tokenHolders = s1.tokenHolders ∧ s2.current = s1.current ∧
  s2.tstates = s1.tstates ∧ s2.interps = s1.interps ∧
  s2.nextTs = s1.nextTs ∧ s2.nextInterp = s1.nextInterp ∧
  s2.canCreate = s1.canCreate

/-- One transition label of the modelled runtime: some thread invokes one of
the primitives. -/
inductive PyOp where
  | save (t : Nat)
  | restore (t ts : Nat)
  | swap (t : Nat) (ts : Option Nat)
  | newts (interp : Nat)
  | clear (t ts : Nat)
  | delcur (t : Nat)
  | newinterp (t : Nat)
  | endinterp (t ts : Nat)
  | getx (t : Nat)
  | setx (t v : Nat)
  deriving DecidableEq, Repr

/-- Execute one labelled transition, keeping only the successor state. -/
def runOp (op : PyOp) (s : PyState) : Option PyState :=
  match op with
  | PyOp.save t => (PyEval_SaveThread t s).map Prod.snd
  | PyOp.restore t ts => (PyEval_RestoreThread t ts s).map Prod.snd
  | PyOp.swap t ts => (PyThreadState_Swap t ts s).map Prod.snd
  | PyOp.newts i => (PyThreadState_New i s).map Prod.snd
  | PyOp.clear t ts => (PyThreadState_Clear t ts s).map Prod.snd
  | PyOp.delcur t => (PyThreadState_DeleteCurrent t s).map Prod.snd
  | PyOp.newinterp t => (Py_NewInterpreter t s).map Prod.snd
  | PyOp.endinterp t ts => (Py_EndInterpreter t ts s).map Prod.snd
  | PyOp.getx t => (pyGetX t s).map Prod.snd
  | PyOp.setx t v => (pySetX t v s).map Prod.snd

/-- Execute a sequence of labelled transitions (an interleaved schedule of
the concurrent threads' primitive calls). -/
def runOps : List PyOp → PyState → Option PyState
  | [], s => some s
  | op :: rest, s =>
    match runOp op s with
    | none => none
    | some s1 => runOps rest s1

/- ------------------------------------------------------------------ -/
/- Theorems.                                                           -/
/- ------------------------------------------------------------------ -/

@[simp] theorem alookup_aset (j k v : Nat) (l : List (Nat × Nat)) :
    alookup j (aset k v l) = if k = j then some v else alookup j l := by
  induction l with
  | nil => simp [aset, alookup]
  | cons p rest ih =>
    by_cases hp : p.1 = k
    · subst hp
      by_cases h : p.1 = j
      · subst h
        simp [aset, alookup]
      · simp [aset, alookup, h]
    · by_cases h : k = j
      · subst h
        simp [aset, alookup, hp, ih]
      · simp [aset, alookup, hp, h, ih]

@[simp] theorem alookup_adel (j k : Nat) (l : List (Nat × Nat)) :
    alookup j (adel k l) = if k = j then none else alookup j l := by
  induction l with
  | nil => simp [adel, alookup]
  | cons p rest ih =>
    by_cases hp : p.1 = k
    · subst hp
      by_cases h : p.1 = j
      · subst h
        simp [adel, alookup, ih]
      · simp [adel, alookup, h, ih]
    · by_cases h : k = j
      · subst h
        simp [adel, alookup, hp, ih]
      · simp [adel, alookup, hp, h, ih]

theorem pyBind_some {α β : Type} {m : PyM α} {g : α → PyM β} {s s1 : PyState}
    {a : α} (h : m s = some (a, s1)) : pyBind m g s = g a s1 := by
  simp [pyBind, h]

theorem pyBind_none {α β : Type} {m : PyM α} {g : α → PyM β} {s : PyState}
    (h : m s = none) : pyBind m g s = none := by
  simp [pyBind, h]

/-- Claim C2: the SaveCurrentBindingScope guard (`restore_tstate_scope`)
records the calling thread's current binding on entry and forces it current
again on exit, so for every sequence of rebinding operations performed inside
the scope (any body), the thread's current binding immediately after scope
exit equals the current binding recorded at scope entry. -/
theorem claim_C2 {α : Type} (t ts0 : Nat) (s s2 : PyState) (r : α) (body : PyM α)
    (hcur : alookup t s.current = some ts0)
    (hbody : body s = some (r, s2)) :
    ∃ sf, restore_tstate_scope t body s = some (r, sf) ∧
      alookup t sf.current = alookup t s.current := by
  have hget : PyThreadState_Get t s = some (ts0, s) := by
    simp [PyThreadState_Get, hcur]
  have hswap : PyThreadState_Swap t (some ts0) s2 =
      some (alookup t s2.current, { s2 with current := aset t ts0 s2.current }) := by
    simp [PyThreadState_Swap]
  refine ⟨{ s2 with current := aset t ts0 s2.current }, ?_, ?_⟩
  · rw [restore_tstate_scope, pyBind_some hget, pyBind_some hbody, pyBind_some hswap]
    rfl
  · simp [hcur]

/-- Claim C3: releasing the execution token (entry of `enable_threads_scope`,
the modelled `PyEval_SaveThread`) leaves the calling thread's current binding
and all bindings, contexts and namespaces untouched — it only frees the token
— and afterwards no workload code can run on that thread until the token is
re-acquired (reads and writes of the context namespace fail). -/
theorem claim_C3 (t ts : Nat) (s s1 : PyState)
    (h : PyEval_SaveThread t s = some (ts, s1)) :
    alookup t s.current = some ts ∧
    s1.current = s.current ∧ s1.tstates = s.tstates ∧ s1.interps = s.interps ∧
    s1.nsX = s.nsX ∧ s1.tokenHolders = [] ∧
    pyGetX t s1 = none ∧ (∀ v, pySetX t v s1 = none) := by
  cases hc : alookup t s.current with
  | none =>
    have hrun : PyEval_SaveThread t s = none := by
      simp [PyEval_SaveThread, hc]
    rw [hrun] at h
    cases h
  | some ts' =>
    by_cases ht : t ∈ s.tokenHolders
    · have hrun : PyEval_SaveThread t s = some (ts', { s with tokenHolders := [] }) := by
        simp [PyEval_SaveThread, hc, ht]
      rw [hrun] at h
      injection h with h2
      injection h2 with ha hb
      subst ha
      subst hb
      refine ⟨rfl, rfl, rfl, rfl, rfl, rfl, ?_, ?_⟩
      · simp only [pyGetX, hc]
        cases hts : alookup ts' s.tstates <;> simp [hts]
      · intro v
        simp only [pySetX, hc]
        cases hts : alookup ts' s.tstates <;> simp [hts]
    · have hrun : PyEval_SaveThread t s = none := by
        simp [PyEval_SaveThread, hc, ht]
      rw [hrun] at h
      cases h

/-- Claim C5: the SwapCurrentBindingScope guard (`swap_tstate_scope`): on
entry it makes the target the thread's current binding, records the previous
one, and touches nothing else (in particular not the execution token); on
exit it restores the previous binding as current, again leaving the token and
all other components exactly as the body left them. -/
theorem claim_C5 {α : Type} (t v : Nat) (s s2 : PyState) (r : α) (body : PyM α)
    (hbody : body { s with current := aset t v s.current } = some (r, s2)) :
    (PyThreadState_Swap t (some v) s =
        some (alookup t s.current, { s with current := aset t v s.current })) ∧
    ∃ sf, swap_tstate_scope t (some v) body s = some (r, sf) ∧
      alookup t sf.current = alookup t s.current ∧
      sf.tokenHolders = s2.tokenHolders ∧ sf.tstates = s2.tstates ∧
      sf.interps = s2.interps ∧ sf.nsX = s2.nsX := by
  refine ⟨by simp [PyThreadState_Swap], ?_⟩
  have h1 : PyThreadState_Swap t (some v) s =
      some (alookup t s.current, { s with current := aset t v s.current }) := by
    simp [PyThreadState_Swap]
  cases hc : alookup t s.current with
  | some p =>
    refine ⟨{ s2 with current := aset t p s2.current }, ?_, ?_, rfl, rfl, rfl, rfl⟩
    · rw [hc] at h1
      rw [swap_tstate_scope, pyBind_some h1, pyBind_some hbody]
      have h2 : PyThreadState_Swap t (some p) s2 =
          some (alookup t s2.current, { s2 with current := aset t p s2.current }) := by
        simp [PyThreadState_Swap]
      rw [pyBind_some h2]
      rfl
    · simp [hc]
  | none =>
    refine ⟨{ s2 with current := adel t s2.current }, ?_, ?_, rfl, rfl, rfl, rfl⟩
    · rw [hc] at h1
      rw [swap_tstate_scope, pyBind_some h1, pyBind_some hbody]
      have h2 : PyThreadState_Swap t none s2 =
          some (alookup t s2.current, { s2 with current := adel t s2.current }) := by
        simp [PyThreadState_Swap]
      rw [pyBind_some h2]
      rfl
    · simp [hc]

/-- Claim C6: the `sub_interpreter` constructor, run by a thread holding the
token with a valid current binding, allocates a new isolated context with a
fresh primordial binding and returns it — and leaves the calling thread's
current binding exactly as it was before the call (the internal
`restore_tstate_scope` undoes the transient rebinding of creation). -/
theorem claim_C6 (t ts0 : Nat) (s : PyState)
    (hcur : alookup t s.current = some ts0)
    (htok : t ∈ s.tokenHolders)
    (hcc : s.canCreate = true) :
    ∃ sf, sub_interpreter_mk t s = some (some s.nextTs, sf) ∧
      alookup t sf.current = alookup t s.current ∧
      alookup s.nextTs sf.tstates = some s.nextInterp ∧
      s.nextInterp ∈ sf.interps ∧
      sf.tokenHolders = s.tokenHolders := by
  have hget : PyThreadState_Get t s = some (ts0, s) := by
    simp [PyThreadState_Get, hcur]
  have hnew : Py_NewInterpreter t s =
      some (some s.nextTs,
        { s with interps := s.nextInterp :: s.interps,
                 tstates := aset s.nextTs s.nextInterp s.tstates,
                 current := aset t s.nextTs s.current,
                 nextTs := s.nextTs + 1,
                 nextInterp := s.nextInterp + 1 }) := by
    simp [Py_NewInterpreter, htok, hcc]
  refine ⟨{ s with interps := s.nextInterp :: s.interps,
                   tstates := aset s.nextTs s.nextInterp s.tstates,
                   current := aset t ts0 (aset t s.nextTs s.current),
                   nextTs := s.nextTs + 1,
                   nextInterp := s.nextInterp + 1 }, ?_, ?_, ?_, ?_, rfl⟩
  · rw [sub_interpreter_mk, restore_tstate_scope, pyBind_some hget,
      pyBind_some hnew]
    have h2 : PyThreadState_Swap t (some ts0)
        { s with interps := s.nextInterp :: s.interps,
                 tstates := aset s.nextTs s.nextInterp s.tstates,
                 current := aset t s.nextTs s.current,
                 nextTs := s.nextTs + 1,
                 nextInterp := s.nextInterp + 1 } =
        some (alookup t (aset t s.nextTs s.current),
          { s with interps := s.nextInterp :: s.interps,
                   tstates := aset s.nextTs s.nextInterp s.tstates,
                   current := aset t ts0 (aset t s.nextTs s.current),
                   nextTs := s.nextTs + 1,
                   nextInterp := s.nextInterp + 1 }) := by
      simp [PyThreadState_Swap]
    rw [pyBind_some h2]
    rfl
  · simp [hcur]
  · simp
  · simp

/-- Claim C9: the `sub_interpreter` destructor is a guarded no-op when the
stored handle is null (creation failed): it performs no swap and no
interpreter teardown, returning the state unchanged. -/
theorem claim_C9 (t : Nat) (s : PyState) :
    sub_interpreter_destroy t none s = some ((), s) := rfl

/-- Claim C4: the release/restore pair of `enable_threads_scope` on a single
thread: the restore at scope exit returns the token to exactly the holder
state captured at the release on entry, so immediately after exit the
original thread holds the token again with the binding it had before entry;
and the pair is strictly nested — after the release, a second release by the
same thread (without an intervening restore) fails. -/
theorem claim_C4 {α : Type} (t ts0 i : Nat) (s s2 : PyState) (r : α) (body : PyM α)
    (hcur : alookup t s.current = some ts0)
    (htok : t ∈ s.tokenHolders)
    (hbody : body { s with tokenHolders := [] } = some (r, s2))
    (hfree2 : s2.tokenHolders = [])
    (hlive2 : alookup ts0 s2.tstates = some i) :
    (∃ sf, enable_threads_scope t body s = some (r, sf) ∧
        sf.tokenHolders = [t] ∧
        alookup t sf.current = alookup t s.current) ∧
    PyEval_SaveThread t { s with tokenHolders := [] } = none := by
  constructor
  · have hsave : PyEval_SaveThread t s = some (ts0, { s with tokenHolders := [] }) := by
      simp [PyEval_SaveThread, hcur, htok]
    have hres : PyEval_RestoreThread t ts0 s2 =
        some ((), { s2 with tokenHolders := [t], current := aset t ts0 s2.current }) := by
      simp [PyEval_RestoreThread, hlive2, hfree2]
    refine ⟨{ s2 with tokenHolders := [t], current := aset t ts0 s2.current },
      ?_, rfl, ?_⟩
    · rw [enable_threads_scope, pyBind_some hsave, pyBind_some hbody,
        pyBind_some hres]
      rfl
    · simp [hcur]
  · simp [PyEval_SaveThread, hcur]

theorem thread_scope_enter_run (t interp : Nat) (s : PyState)
    (hinterp : interp ∈ s.interps)
    (hfree : s.tokenHolders = []) :
    thread_scope_enter t interp s =
      some ((s.nextTs, some s.nextTs),
        { s with tstates := aset s.nextTs interp s.tstates,
                 nextTs := s.nextTs + 1,
                 tokenHolders := [t],
                 current := aset t s.nextTs (aset t s.nextTs s.current) }) := by
  have hnew : PyThreadState_New interp s =
      some (s.nextTs, { s with tstates := aset s.nextTs interp s.tstates,
                               nextTs := s.nextTs + 1 }) := by
    simp [PyThreadState_New, hinterp]
  have hres : PyEval_RestoreThread t s.nextTs
      { s with tstates := aset s.nextTs interp s.tstates, nextTs := s.nextTs + 1 } =
      some ((), { s with tstates := aset s.nextTs interp s.tstates,
                         nextTs := s.nextTs + 1,
                         tokenHolders := [t],
                         current := aset t s.nextTs s.current }) := by
    simp [PyEval_RestoreThread, hfree]
  have hsw : PyThreadState_Swap t (some s.nextTs)
      { s with tstates := aset s.nextTs interp s.tstates,
               nextTs := s.nextTs + 1,
               tokenHolders := [t],
               current := aset t s.nextTs s.current } =
      some (alookup t (aset t s.nextTs s.current),
        { s with tstates := aset s.nextTs interp s.tstates,
                 nextTs := s.nextTs + 1,
                 tokenHolders := [t],
                 current := aset t s.nextTs (aset t s.nextTs s.current) }) := by
    simp [PyThreadState_Swap]
  have hmk : thread_state_mk t interp s =
      some (s.nextTs,
        { s with tstates := aset s.nextTs interp s.tstates,
                 nextTs := s.nextTs + 1,
                 tokenHolders := [t],
                 current := aset t s.nextTs s.current }) := by
    rw [thread_state_mk, pyBind_some hnew, pyBind_some hres]
    rfl
  rw [thread_scope_enter, pyBind_some hmk, pyBind_some hsw]
  simp [pyPure]

theorem thread_scope_exit_run (t b i : Nat) (s2 : PyState)
    (h2tok : t ∈ s2.tokenHolders)
    (h2live : alookup b s2.tstates = some i) :
    thread_scope_exit t (b, some b) s2 =
      some ((), { s2 with current := adel t (aset t b s2.current),
                          tstates := adel b s2.tstates,
                          tokenHolders := [] }) := by
  have hsw : PyThreadState_Swap t (some b) s2 =
      some (alookup t s2.current, { s2 with current := aset t b s2.current }) := by
    simp [PyThreadState_Swap]
  have hclear : PyThreadState_Clear t b { s2 with current := aset t b s2.current } =
      some ((), { s2 with current := aset t b s2.current }) := by
    simp [PyThreadState_Clear, h2live, h2tok]
  have hdel : PyThreadState_DeleteCurrent t { s2 with current := aset t b s2.current } =
      some ((), { s2 with current := adel t (aset t b s2.current),
                          tstates := adel b s2.tstates,
                          tokenHolders := [] }) := by
    simp [PyThreadState_DeleteCurrent, h2tok]
  rw [thread_scope_exit, pyBind_some hsw, thread_state_del, pyBind_some hclear,
    hdel]

/-- Claim C1: the composite `thread_scope` guard: on entry it first performs
attach (a fresh binding against the given context is created, made current
for the calling thread, and the execution token is acquired) and then a swap
with that fresh binding as target (the pair returned records it); on every
exit path — the body's outcome `r` is arbitrary, covering early termination
of the workload — it unwinds the swap and then detaches, tearing the binding
down completely: afterwards the thread has no current binding, the fresh
binding no longer exists, and the token is released. -/
theorem claim_C1 {α : Type} (t interp : Nat) (s : PyState) (body : PyM α)
    (hinterp : interp ∈ s.interps)
    (hfree : s.tokenHolders = [])
    (hbody : ∀ s1, alookup t s1.current = some s.nextTs →
        s1.tokenHolders = [t] →
        alookup s.nextTs s1.tstates = some interp →
        ∃ r s2, body s1 = some (r, s2) ∧ WorkloadOnly s1 s2) :
    (∃ s1, thread_scope_enter t interp s = some ((s.nextTs, some s.nextTs), s1) ∧
        alookup s.nextTs s1.tstates = some interp ∧
        alookup t s1.current = some s.nextTs ∧
        s1.tokenHolders = [t]) ∧
    (∃ r sf, thread_scope t interp body s = some (r, sf) ∧
        sf.tokenHolders = [] ∧
        alookup t sf.current = none ∧
        alookup s.nextTs sf.tstates = none) := by
  have henter := thread_scope_enter_run t interp s hinterp hfree
  constructor
  · exact ⟨_, henter, by simp, by simp, rfl⟩
  · obtain ⟨r, s2, hb, hW⟩ := hbody
      { s with tstates := aset s.nextTs interp s.tstates,
               nextTs := s.nextTs + 1,
               tokenHolders := [t],
               current := aset t s.nextTs (aset t s.nextTs s.current) }
      (by simp) rfl (by simp)
    obtain ⟨hW1, hW2, hW3, _⟩ := hW
    have hexit := thread_scope_exit_run t s.nextTs interp s2
      (by rw [hW1]; exact List.mem_singleton.mpr rfl)
      (by rw [hW3]; simp)
    refine ⟨r, { s2 with current := adel t (aset t s.nextTs s2.current),
                         tstates := adel s.nextTs s2.tstates,
                         tokenHolders := [] }, ?_, rfl, by simp, by simp⟩
    rw [thread_scope, pyBind_some henter, pyBind_some hb, pyBind_some hexit]
    rfl

/-- Claim C10: inside `thread_scope`, the previous binding recorded by the
internal swap is the freshly attached binding itself (attach already made it
current before the swap ran); consequently at detach time the binding being
detached is the calling thread's current binding — the precondition of
clearing and deleting the current thread state — so the teardown succeeds and
removes exactly that binding. -/
theorem claim_C10 (t interp b : Nat) (s s2 : PyState)
    (hinterp : interp ∈ s.interps)
    (hfree : s.tokenHolders = [])
    (hb : b = s.nextTs)
    (h2cur : alookup t s2.current = some b)
    (h2tok : t ∈ s2.tokenHolders)
    (h2live : alookup b s2.tstates = some interp) :
    (∃ s1, thread_scope_enter t interp s = some ((b, some b), s1)) ∧
    (∃ sf, thread_scope_exit t (b, some b) s2 = some ((), sf) ∧
        alookup t sf.current = none ∧
        alookup b sf.tstates = none) := by
  subst hb
  constructor
  · exact ⟨_, thread_scope_enter_run t interp s hinterp hfree⟩
  · refine ⟨_, thread_scope_exit_run t s.nextTs interp s2 h2tok h2live, ?_, ?_⟩
    · simp
    · simp

/-- Claim C7: the end-to-end scenario of `main`: two sub-interpreters are
created, `X` is set (to 42) in the primordial context, and the four workers —
two against s1, one against s2, one against the primordial context — each
read `X`; the three sub-context workers observe `X` unset and the
primordial-context worker observes the written value.  Moreover namespaces
are isolated: a write of `X` in one context never changes the value of `X`
observed in a different context. -/
theorem claim_C7 :
    (mainProgram startState).map Prod.fst = some (none, none, none, some 42) ∧
    (∀ (t v ts i j : Nat) (s s1 : PyState),
        pySetX t v s = some ((), s1) →
        alookup t s.current = some ts →
        alookup ts s.tstates = some i →
        j ≠ i →
        alookup j s1.nsX = alookup j s.nsX) := by
  constructor
  · decide
  · intro t v ts i j s s1 hset hcur hts hji
    have hrun : pySetX t v s = none ∨
        pySetX t v s = some ((), { s with nsX := aset i v s.nsX }) := by
      by_cases ht : t ∈ s.tokenHolders
      · right
        simp [pySetX, hcur, hts, ht]
      · left
        simp [pySetX, hcur, hts, ht]
    rcases hrun with hrun | hrun
    · rw [hrun] at hset
      cases hset
    · rw [hrun] at hset
      injection hset with h2
      injection h2 with _ hs
      rw [← hs]
      have hij : ¬ i = j := fun he => hji he.symm
      simp [hij]

theorem runOp_tokenHolders (op : PyOp) (s s1 : PyState)
    (h : runOp op s = some s1) :
    s1.tokenHolders = s.tokenHolders ∨ s1.tokenHolders = [] ∨
      (s.tokenHolders = [] ∧ ∃ t ts, op = PyOp.restore t ts ∧
        s1.tokenHolders = [t]) := by
  cases op with
  | save t =>
    simp only [runOp, Option.map_eq_some'] at h
    obtain ⟨⟨v, s2⟩, hx, rfl⟩ := h
    cases hc : alookup t s.current with
    | none =>
      have hrun : PyEval_SaveThread t s = none := by
        simp [PyEval_SaveThread, hc]
      rw [hrun] at hx
      cases hx
    | some ts =>
      by_cases ht : t ∈ s.tokenHolders
      · have hrun : PyEval_SaveThread t s =
            some (ts, { s with tokenHolders := [] }) := by
          simp [PyEval_SaveThread, hc, ht]
        rw [hrun] at hx
        injection hx with hx2
        injection hx2 with _ hx3
        rw [← hx3]
        exact Or.inr (Or.inl rfl)
      · have hrun : PyEval_SaveThread t s = none := by
          simp [PyEval_SaveThread, hc, ht]
        rw [hrun] at hx
        cases hx
  | restore t ts =>
    simp only [runOp, Option.map_eq_some'] at h
    obtain ⟨⟨v, s2⟩, hx, rfl⟩ := h
    cases hc : alookup ts s.tstates with
    | none =>
      have hrun : PyEval_RestoreThread t ts s = none := by
        simp [PyEval_RestoreThread, hc]
      rw [hrun] at hx
      cases hx
    | some i =>
      by_cases hf : s.tokenHolders = []
      · have hrun : PyEval_RestoreThread t ts s =
            some ((), { s with tokenHolders := [t],
                               current := aset t ts s.current }) := by
          simp [PyEval_RestoreThread, hc, hf]
        rw [hrun] at hx
        injection hx with hx2
        injection hx2 with _ hx3
        rw [← hx3]
        exact Or.inr (Or.inr ⟨hf, t, ts, rfl, rfl⟩)
      · have hrun : PyEval_RestoreThread t ts s = none := by
          simp [PyEval_RestoreThread, hc, hf]
        rw [hrun] at hx
        cases hx
  | swap t ts =>
    simp only [runOp, Option.map_eq_some'] at h
    obtain ⟨⟨w, s2⟩, hx, rfl⟩ := h
    cases ts with
    | some v =>
      have hrun : PyThreadState_Swap t (some v) s =
          some (alookup t s.current, { s with current := aset t v s.current }) := by
        simp [PyThreadState_Swap]
      rw [hrun] at hx
      injection hx with hx2
      injection hx2 with _ hx3
      rw [← hx3]
      exact Or.inl rfl
    | none =>
      have hrun : PyThreadState_Swap t none s =
          some (alookup t s.current, { s with current := adel t s.current }) := by
        simp [PyThreadState_Swap]
      rw [hrun] at hx
      injection hx with hx2
      injection hx2 with _ hx3
      rw [← hx3]
      exact Or.inl rfl
  | newts i =>
    simp only [runOp, Option.map_eq_some'] at h
    obtain ⟨⟨w, s2⟩, hx, rfl⟩ := h
    by_cases hi : i ∈ s.interps
    · have hrun : PyThreadState_New i s =
          some (s.nextTs, { s with tstates := aset s.nextTs i s.tstates,
                                   nextTs := s.nextTs + 1 }) := by
        simp [PyThreadState_New, hi]
      rw [hrun] at hx
      injection hx with hx2
      injection hx2 with _ hx3
      rw [← hx3]
      exact Or.inl rfl
    · have hrun : PyThreadState_New i s = none := by
        simp [PyThreadState_New, hi]
      rw [hrun] at hx
      cases hx
  | clear t ts =>
    simp only [runOp, Option.map_eq_some'] at h
    obtain ⟨⟨w, s2⟩, hx, rfl⟩ := h
    cases hc : alookup ts s.tstates with
    | none =>
      have hrun : PyThreadState_Clear t ts s = none := by
        simp [PyThreadState_Clear, hc]
      rw [hrun] at hx
      cases hx
    | some i =>
      by_cases ht : t ∈ s.tokenHolders
      · have hrun : PyThreadState_Clear t ts s = some ((), s) := by
          simp [PyThreadState_Clear, hc, ht]
        rw [hrun] at hx
        injection hx with hx2
        injection hx2 with _ hx3
        rw [← hx3]
        exact Or.inl rfl
      · have hrun : PyThreadState_Clear t ts s = none := by
          simp [PyThreadState_Clear, hc, ht]
        rw [hrun] at hx
        cases hx
  | delcur t =>
    simp only [runOp, Option.map_eq_some'] at h
    obtain ⟨⟨w, s2⟩, hx, rfl⟩ := h
    cases hc : alookup t s.current with
    | none =>
      have hrun : PyThreadState_DeleteCurrent t s = none := by
        simp [PyThreadState_DeleteCurrent, hc]
      rw [hrun] at hx
      cases hx
    | some ts =>
      by_cases ht : t ∈ s.tokenHolders
      · have hrun : PyThreadState_DeleteCurrent t s =
            some ((), { s with tstates := adel ts s.tstates,
                               current := adel t s.current,
                               tokenHolders := [] }) := by
          simp [PyThreadState_DeleteCurrent, hc, ht]
        rw [hrun] at hx
        injection hx with hx2
        injection hx2 with _ hx3
        rw [← hx3]
        exact Or.inr (Or.inl rfl)
      · have hrun : PyThreadState_DeleteCurrent t s = none := by
          simp [PyThreadState_DeleteCurrent, hc, ht]
        rw [hrun] at hx
        cases hx
  | newinterp t =>
    simp only [runOp, Option.map_eq_some'] at h
    obtain ⟨⟨w, s2⟩, hx, rfl⟩ := h
    by_cases ht : t ∈ s.tokenHolders
    · by_cases hcc : s.canCreate = true
      · have hrun : Py_NewInterpreter t s =
            some (some s.nextTs,
              { s with interps := s.nextInterp :: s.interps,
                       tstates := aset s.nextTs s.nextInterp s.tstates,
                       current := aset t s.nextTs s.current,
                       nextTs := s.nextTs + 1,
                       nextInterp := s.nextInterp + 1 }) := by
          simp [Py_NewInterpreter, ht, hcc]
        rw [hrun] at hx
        injection hx with hx2
        injection hx2 with _ hx3
        rw [← hx3]
        exact Or.inl rfl
      · have hrun : Py_NewInterpreter t s = some (none, s) := by
          simp [Py_NewInterpreter, ht, hcc]
        rw [hrun] at hx
        injection hx with hx2
        injection hx2 with _ hx3
        rw [← hx3]
        exact Or.inl rfl
    · have hrun : Py_NewInterpreter t s = none := by
        simp [Py_NewInterpreter, ht]
      rw [hrun] at hx
      cases hx
  | endinterp t ts =>
    simp only [runOp, Option.map_eq_some'] at h
    obtain ⟨⟨w, s2⟩, hx, rfl⟩ := h
    cases hc : alookup ts s.tstates with
    | none =>
      have hrun : Py_EndInterpreter t ts s = none := by
        simp [Py_EndInterpreter, hc]
      rw [hrun] at hx
      cases hx
    | some i =>
      by_cases hcur : alookup t s.current = some ts
      · by_cases ht : t ∈ s.tokenHolders
        · by_cases hall : (s.tstates.all fun p => p.2 != i || p.1 == ts) = true
          · have hrun : Py_EndInterpreter t ts s =
                some ((), { s with tstates := adel ts s.tstates,
                                   interps := s.interps.erase i,
                                   current := adel t s.current,
                                   nsX := adel i s.nsX }) := by
              simp [Py_EndInterpreter, hc, hcur, ht, hall]
            rw [hrun] at hx
            injection hx with hx2
            injection hx2 with _ hx3
            rw [← hx3]
            exact Or.inl rfl
          · have hrun : Py_EndInterpreter t ts s = none := by
              simp [Py_EndInterpreter, hc, hcur, ht, hall]
            rw [hrun] at hx
            cases hx
        · have hrun : Py_EndInterpreter t ts s = none := by
            simp [Py_EndInterpreter, hc, hcur, ht]
          rw [hrun] at hx
          cases hx
      · have hrun : Py_EndInterpreter t ts s = none := by
          simp [Py_EndInterpreter, hc, hcur]
        rw [hrun] at hx
        cases hx
  | getx t =>
    simp only [runOp, Option.map_eq_some'] at h
    obtain ⟨⟨w, s2⟩, hx, rfl⟩ := h
    cases hc : alookup t s.current with
    | none =>
      have hrun : pyGetX t s = none := by
        simp [pyGetX, hc]
      rw [hrun] at hx
      cases hx
    | some ts =>
      cases hd : alookup ts s.tstates with
      | none =>
        have hrun : pyGetX t s = none := by
          simp [pyGetX, hc, hd]
        rw [hrun] at hx
        cases hx
      | some i =>
        by_cases ht : t ∈ s.tokenHolders
        · have hrun : pyGetX t s = some (alookup i s.nsX, s) := by
            simp [pyGetX, hc, hd, ht]
          rw [hrun] at hx
          injection hx with hx2
          injection hx2 with _ hx3
          rw [← hx3]
          exact Or.inl rfl
        · have hrun : pyGetX t s = none := by
            simp [pyGetX, hc, hd, ht]
          rw [hrun] at hx
          cases hx
  | setx t v =>
    simp only [runOp, Option.map_eq_some'] at h
    obtain ⟨⟨w, s2⟩, hx, rfl⟩ := h
    cases hc : alookup t s.current with
    | none =>
      have hrun : pySetX t v s = none := by
        simp [pySetX, hc]
      rw [hrun] at hx
      cases hx
    | some ts =>
      cases hd : alookup ts s.tstates with
      | none =>
        have hrun : pySetX t v s = none := by
          simp [pySetX, hc, hd]
        rw [hrun] at hx
        cases hx
      | some i =>
        by_cases ht : t ∈ s.tokenHolders
        · have hrun : pySetX t v s =
              some ((), { s with nsX := aset i v s.nsX }) := by
            simp [pySetX, hc, hd, ht]
          rw [hrun] at hx
          injection hx with hx2
          injection hx2 with _ hx3
          rw [← hx3]
          exact Or.inl rfl
        · have hrun : pySetX t v s = none := by
            simp [pySetX, hc, hd, ht]
          rw [hrun] at hx
          cases hx

theorem runOp_holders_le (op : PyOp) (s s1 : PyState)
    (h : runOp op s = some s1) (hinv : s.tokenHolders.length ≤ 1) :
    s1.tokenHolders.length ≤ 1 := by
  rcases runOp_tokenHolders op s s1 h with he | he | ⟨_, t, ts, _, he⟩
  · rw [he]; exact hinv
  · rw [he]; simp
  · rw [he]; simp

/-- Claim C8: mutual exclusion over every interleaved schedule: starting from
a state where at most one thread holds the execution token, after any
sequence of primitive transitions at most one thread holds it (so at most one
thread runs workload code at any instant); a step that makes a thread a new
token holder can only be that thread's (blocking) acquisition primitive —
the one attach and token-restore go through — and it requires the token to
be free, so while some thread holds the token every other thread's
acquisition fails (blocks). -/
theorem claim_C8 (ops : List PyOp) (s s1 : PyState)
    (h : runOps ops s = some s1) (hinv : s.tokenHolders.length ≤ 1) :
    s1.tokenHolders.length ≤ 1 ∧
    (∀ (op : PyOp) (u u1 : PyState) (t : Nat),
        runOp op u = some u1 → t ∈ u1.tokenHolders → t ∉ u.tokenHolders →
        u.tokenHolders = [] ∧ ∃ ts, op = PyOp.restore t ts) ∧
    (∀ (t ts : Nat) (u : PyState), u.tokenHolders ≠ [] →
        runOp (PyOp.restore t ts) u = none) := by
  refine ⟨?_, ?_, ?_⟩
  · induction ops generalizing s with
    | nil =>
      simp only [runOps] at h
      injection h with h2
      rw [← h2]
      exact hinv
    | cons op rest ih =>
      simp only [runOps] at h
      cases hop : runOp op s with
      | none => rw [hop] at h; cases h
      | some sm =>
        rw [hop] at h
        exact ih sm h (runOp_holders_le op s sm hop hinv)
  · intro op u u1 t hrun htin htout
    rcases runOp_tokenHolders op u u1 hrun with he | he | ⟨hf, t', ts', hop, he⟩
    · rw [he] at htin
      exact absurd htin htout
    · rw [he] at htin
      cases htin
    · rw [he] at htin
      have : t = t' := by
        cases htin with
        | head => rfl
        | tail _ hmem => cases hmem
      subst this
      exact ⟨hf, ts', hop⟩
  · intro t ts u hne
    simp only [runOp, PyEval_RestoreThread]
    cases hc : alookup ts u.tstates with
    | none => simp
    | some i => simp [hne]

/-- Witness for claim C1 at a concrete worker thread, context and state. -/
theorem claim_C1_witness :
    (∃ s1, thread_scope_enter 7 0 freshState =
        some ((freshState.nextTs, some freshState.nextTs), s1) ∧
        alookup freshState.nextTs s1.tstates = some 0 ∧
        alookup 7 s1.current = some freshState.nextTs ∧
        s1.tokenHolders = [7]) ∧
    (∃ r sf, thread_scope 7 0 (pyPure 5) freshState = some (r, sf) ∧
        sf.tokenHolders = [] ∧
        alookup 7 sf.current = none ∧
        alookup freshState.nextTs sf.tstates = none) :=
  claim_C1 7 0 freshState (pyPure 5) (by decide) (by decide)
    (fun s1 h1 h2 h3 => ⟨5, s1, rfl, rfl, rfl, rfl, rfl, rfl, rfl, rfl⟩)

/-- Witness for claim C2 at a concrete state, with an actual rebinding (a
swap to no binding) performed inside the scope. -/
theorem claim_C2_witness :
    ∃ sf, restore_tstate_scope 0 (PyThreadState_Swap 0 none) startState =
        some (some 0, sf) ∧
      alookup 0 sf.current = alookup 0 startState.current :=
  claim_C2 0 0 startState { startState with current := [] } (some 0)
    (PyThreadState_Swap 0 none) (by decide) (by decide)

/-- Witness for claim C3 at the start state. -/
theorem claim_C3_witness :
    alookup 0 startState.current = some 0 ∧
    freshState.current = startState.current ∧
    freshState.tstates = startState.tstates ∧
    freshState.interps = startState.interps ∧
    freshState.nsX = startState.nsX ∧
    freshState.tokenHolders = [] ∧
    pyGetX 0 freshState = none ∧ (∀ v, pySetX 0 v freshState = none) :=
  claim_C3 0 0 startState freshState (by decide)

/-- Witness for claim C4 at the start state with a trivial body. -/
theorem claim_C4_witness :
    (∃ sf, enable_threads_scope 0 (pyPure 5) startState = some (5, sf) ∧
        sf.tokenHolders = [0] ∧
        alookup 0 sf.current = alookup 0 startState.current) ∧
    PyEval_SaveThread 0 { startState with tokenHolders := [] } = none :=
  claim_C4 0 0 0 startState freshState 5 (pyPure 5) (by decide) (by decide)
    (by decide) (by decide) (by decide)

/-- Witness for claim C5 at the start state, swapping in binding 1. -/
theorem claim_C5_witness :
    (PyThreadState_Swap 0 (some 1) startState =
        some (alookup 0 startState.current,
          { startState with current := aset 0 1 startState.current })) ∧
    ∃ sf, swap_tstate_scope 0 (some 1) (pyPure 3) startState = some (3, sf) ∧
      alookup 0 sf.current = alookup 0 startState.current ∧
      sf.tokenHolders =
        ({ startState with current := [(0, 1)] } : PyState).tokenHolders ∧
      sf.tstates = ({ startState with current := [(0, 1)] } : PyState).tstates ∧
      sf.interps = ({ startState with current := [(0, 1)] } : PyState).interps ∧
      sf.nsX = ({ startState with current := [(0, 1)] } : PyState).nsX :=
  claim_C5 0 1 startState { startState with current := [(0, 1)] } 3 (pyPure 3)
    (by decide)

/-- Witness for claim C6 at the start state. -/
theorem claim_C6_witness :
    ∃ sf, sub_interpreter_mk 0 startState = some (some startState.nextTs, sf) ∧
      alookup 0 sf.current = alookup 0 startState.current ∧
      alookup startState.nextTs sf.tstates = some startState.nextInterp ∧
      startState.nextInterp ∈ sf.interps ∧
      sf.tokenHolders = startState.tokenHolders :=
  claim_C6 0 0 startState (by decide) (by decide) rfl

/-- Witness for claim C7: an instance of the isolation conjunct at a concrete
write, next to the (already closed) end-to-end run. -/
theorem claim_C7_witness :
    (mainProgram startState).map Prod.fst = some (none, none, none, some 42) ∧
    alookup 1 ({ startState with nsX := aset 0 42 startState.nsX } : PyState).nsX =
      alookup 1 startState.nsX :=
  ⟨claim_C7.1,
   claim_C7.2 0 42 0 0 1 startState
     { startState with nsX := aset 0 42 startState.nsX }
     (by decide) (by decide) (by decide) (by decide)⟩

/-- Witness for claim C8 on a concrete two-step schedule (release then
re-acquire by thread 0). -/
theorem claim_C8_witness :
    startState.tokenHolders.length ≤ 1 ∧
    (∀ (op : PyOp) (u u1 : PyState) (t : Nat),
        runOp op u = some u1 → t ∈ u1.tokenHolders → t ∉ u.tokenHolders →
        u.tokenHolders = [] ∧ ∃ ts, op = PyOp.restore t ts) ∧
    (∀ (t ts : Nat) (u : PyState), u.tokenHolders ≠ [] →
        runOp (PyOp.restore t ts) u = none) :=
  claim_C8 [PyOp.save 0, PyOp.restore 0 0] startState startState
    (by decide) (by decide)

/-- Witness for claim C9 at the start state. -/
theorem claim_C9_witness :
    sub_interpreter_destroy 0 none startState = some ((), startState) :=
  claim_C9 0 startState

/-- Witness for claim C10 at a concrete worker thread and post-workload
state. -/
theorem claim_C10_witness :
    (∃ s1, thread_scope_enter 7 0 freshState = some ((1, some 1), s1)) ∧
    (∃ sf, thread_scope_exit 7 (1, some 1)
        { tokenHolders := [7], current := [(7, 1)], tstates := [(1, 0)],
          interps := [0], nsX := [], nextTs := 2, nextInterp := 1,
          canCreate := true } = some ((), sf) ∧
        alookup 7 sf.current = none ∧
        alookup 1 sf.tstates = none) :=
  claim_C10 7 0 1 freshState
    { tokenHolders := [7], current := [(7, 1)], tstates := [(1, 0)],
      interps := [0], nsX := [], nextTs := 2, nextInterp := 1,
      canCreate := true }
    (by decide) (by decide) (by decide) (by decide) (by decide) (by decide)

end SubInterp
